import Mathlib

/-!
# Verification of the stock-screener core

Shallow embedding of the screening engine found in
`examples/stock_screener_unified.py` and `examples/stock_screener_web.py`:

* the indicator layer (`calculate_macd`, exponential moving averages via
  pandas `ewm(span, adjust=False).mean()`),
* the weekly resampling fallback (`resample("W-FRI").agg(...).dropna()`),
* the per-symbol screening predicate chains (`screen_stock`,
  `screen_stock_tab1`),
* a sequential model of the background-task orchestration
  (`run_task_tab1` / `run_task_tab2` loops, the `/start/<tab>` route and the
  non-blocking per-class task locks).

Numeric values (Python floats) are modelled as rationals; exact arithmetic is
taken as the semantics of the float computations.  Dates are modelled as day
numbers with day 0 a Monday.
-/

namespace Screener

/-! ## Indicator layer

`pandas.Series.ewm(span=s, adjust=False).mean()` computes
`y[0] = x[0]`, `y[t] = alpha * x[t] + (1-alpha) * y[t-1]` with
`alpha = 2/(s+1)`. -/

/-- The tail of an `adjust=False` exponential moving average: `prev` is the
previous smoothed value, and each new value is
`alpha * x + (1 - alpha) * prev`. -/
def ewmaFrom (alpha : ℚ) (prev : ℚ) : List ℚ → List ℚ
  | [] => []
  | x :: xs =>
    let e := alpha * x + (1 - alpha) * prev
    e :: ewmaFrom alpha e xs

/-- `adjust=False` exponential moving average with smoothing factor `alpha`,
seeded with the first observed value. -/
def emaAlpha (alpha : ℚ) : List ℚ → List ℚ
  | [] => []
  | x :: xs => x :: ewmaFrom alpha x xs

/-- `close.ewm(span=span, adjust=False).mean()` over the close column. -/
def ema (span : ℕ) (closes : List ℚ) : List ℚ :=
  emaAlpha (2 / (span + 1)) closes

/-- The three derived columns produced by `calculate_macd`. -/
structure MacdCols where
  dif : List ℚ
  dea : List ℚ
  hist : List ℚ
  deriving DecidableEq, Repr

/-- `calculate_macd(df, fast, slow, signal)`:
`DIF = ema(close, fast) - ema(close, slow)`,
`DEA = ema(DIF, signal)`, `MACD柱 = 2 * (DIF - DEA)`. -/
def calculate_macd (closes : List ℚ) (fast : ℕ := 12) (slow : ℕ := 26)
    (signal : ℕ := 9) : MacdCols :=
  let emaFast := ema fast closes
  let emaSlow := ema slow closes
  let dif := List.zipWith (fun a b => a - b) emaFast emaSlow
  let dea := ema signal dif
  { dif := dif, dea := dea,
    hist := List.zipWith (fun a b => 2 * (a - b)) dif dea }

/-- Modelled from the spec: the reference EMA recurrence
`ema[0] = price[0]`, `ema[t] = alpha * price[t] + (1-alpha) * ema[t-1]`,
used as the independent specification the list-valued `ema` is compared
against. -/
def refEMA (alpha : ℚ) (xs : List ℚ) : ℕ → ℚ
  | 0 => xs.getD 0 0
  | t + 1 => alpha * xs.getD (t + 1) 0 + (1 - alpha) * refEMA alpha xs t

theorem ewmaFrom_length (alpha prev : ℚ) (xs : List ℚ) :
    (ewmaFrom alpha prev xs).length = xs.length := by
  induction xs generalizing prev with
  | nil => rfl
  | cons x xs ih => simp [ewmaFrom, ih]

theorem emaAlpha_length (alpha : ℚ) (xs : List ℚ) :
    (emaAlpha alpha xs).length = xs.length := by
  cases xs with
  | nil => rfl
  | cons x xs => simp [emaAlpha, ewmaFrom_length]

theorem ema_length (span : ℕ) (xs : List ℚ) :
    (ema span xs).length = xs.length := emaAlpha_length _ _

theorem emaAlpha_getD_zero (alpha : ℚ) (xs : List ℚ) :
    (emaAlpha alpha xs).getD 0 0 = xs.getD 0 0 := by
  cases xs with
  | nil => rfl
  | cons x xs => simp [emaAlpha]

theorem ewmaFrom_getD_succ (alpha : ℚ) (xs : List ℚ) (prev : ℚ) (t : ℕ)
    (h : t + 1 < xs.length) :
    (ewmaFrom alpha prev xs).getD (t + 1) 0 =
      alpha * xs.getD (t + 1) 0 + (1 - alpha) * (ewmaFrom alpha prev xs).getD t 0 := by
  induction xs generalizing prev t with
  | nil => simp at h
  | cons x xs ih =>
    cases t with
    | zero =>
      cases xs with
      | nil => simp at h
      | cons y ys => simp [ewmaFrom]
    | succ s =>
      have hs : s + 1 < xs.length := by
        simpa using Nat.lt_of_succ_lt_succ h
      simpa [ewmaFrom] using ih (alpha * x + (1 - alpha) * prev) s hs

theorem emaAlpha_getD_succ (alpha : ℚ) (xs : List ℚ) (t : ℕ)
    (h : t + 1 < xs.length) :
    (emaAlpha alpha xs).getD (t + 1) 0 =
      alpha * xs.getD (t + 1) 0 + (1 - alpha) * (emaAlpha alpha xs).getD t 0 := by
  cases xs with
  | nil => simp at h
  | cons x xs =>
    cases t with
    | zero =>
      cases xs with
      | nil => simp at h
      | cons y ys => simp [emaAlpha, ewmaFrom]
    | succ s =>
      have hs : s + 1 < xs.length := by
        simpa using Nat.lt_of_succ_lt_succ h
      simpa [emaAlpha] using ewmaFrom_getD_succ alpha xs x s hs

theorem emaAlpha_getD_eq_refEMA (alpha : ℚ) (xs : List ℚ) (t : ℕ)
    (h : t < xs.length) : (emaAlpha alpha xs).getD t 0 = refEMA alpha xs t := by
  induction t with
  | zero => simpa [refEMA] using emaAlpha_getD_zero alpha xs
  | succ s ih =>
    rw [emaAlpha_getD_succ alpha xs s h, refEMA,
      ih (Nat.lt_of_succ_lt h)]

theorem zipWith_sub_getD (l₁ l₂ : List ℚ) (hl : l₁.length = l₂.length) (t : ℕ) :
    (List.zipWith (fun a b => a - b) l₁ l₂).getD t 0 = l₁.getD t 0 - l₂.getD t 0 := by
  induction l₁ generalizing l₂ t with
  | nil =>
    cases l₂ with
    | nil => simp
    | cons y ys => simp at hl
  | cons x xs ih =>
    cases l₂ with
    | nil => simp at hl
    | cons y ys =>
      cases t with
      | zero => simp
      | succ s => simpa using ih ys (by simpa using hl) s

theorem zipWith_hist_getD (l₁ l₂ : List ℚ) (hl : l₁.length = l₂.length) (t : ℕ) :
    (List.zipWith (fun a b => 2 * (a - b)) l₁ l₂).getD t 0 =
      2 * (l₁.getD t 0 - l₂.getD t 0) := by
  induction l₁ generalizing l₂ t with
  | nil =>
    cases l₂ with
    | nil => simp
    | cons y ys => simp at hl
  | cons x xs ih =>
    cases l₂ with
    | nil => simp at hl
    | cons y ys =>
      cases t with
      | zero => simp
      | succ s => simpa using ih ys (by simpa using hl) s

theorem calculate_macd_dif_length (closes : List ℚ) (fast slow signal : ℕ) :
    (calculate_macd closes fast slow signal).dif.length = closes.length := by
  simp [calculate_macd, ema_length]

/-- `C3`: for every non-empty close series and every span, the computed
exponential moving average is seeded with the first observed price
(`ema[0] = price[0]`) and satisfies the `adjust=False` recurrence
`ema[t] = alpha * price[t] + (1 - alpha) * ema[t-1]` with
`alpha = 2/(span+1)` at every later in-range index. -/
theorem ema_seeding_and_recurrence (closes : List ℚ) (span : ℕ)
    (hne : closes ≠ []) :
    (ema span closes).getD 0 0 = closes.getD 0 0 ∧
      ∀ t : ℕ, 1 ≤ t → t < closes.length →
        (ema span closes).getD t 0 =
          (2 / (span + 1)) * closes.getD t 0 +
            (1 - 2 / (span + 1)) * (ema span closes).getD (t - 1) 0 := by
  refine ⟨emaAlpha_getD_zero _ _, ?_⟩
  intro t ht hlt
  obtain ⟨s, rfl⟩ : ∃ s, t = s + 1 := ⟨t - 1, by omega⟩
  simpa [ema] using emaAlpha_getD_succ (2 / (span + 1)) closes s (by omega)

/-- Witness for `ema_seeding_and_recurrence` at the concrete series `[10, 12]`
with span `2`. -/
theorem ema_seeding_and_recurrence_witness :
    ([10, 12] : List ℚ) ≠ [] ∧
      ((ema 2 [10, 12]).getD 0 0 = ([10, 12] : List ℚ).getD 0 0 ∧
        ∀ t : ℕ, 1 ≤ t → t < ([10, 12] : List ℚ).length →
          (ema 2 [10, 12]).getD t 0 =
            (2 / (2 + 1)) * ([10, 12] : List ℚ).getD t 0 +
              (1 - 2 / (2 + 1)) * (ema 2 [10, 12]).getD (t - 1) 0) :=
  ⟨by simp, ema_seeding_and_recurrence [10, 12] 2 (by simp)⟩

/-- The close series of the golden-vector fixture. -/
def goldenCloses : List ℚ := [10, 11, 12, 11, 10, 9, 10, 11, 12, 13]

/-- `C4`: at every bar `DIF = ema(close, fast) - ema(close, slow)`,
`DEA` satisfies the reference first-value-seeded EMA recurrence over the `DIF`
series, and `Histogram = 2 * (DIF - DEA)`; moreover on the golden close series
`[10,11,12,11,10,9,10,11,12,13]` with `fast=2`, `slow=4`, `signal=2` the
computed `DIF`/`DEA` agree exactly with the reference recurrence values. -/
theorem calculate_macd_spec (closes : List ℚ) (fast slow signal : ℕ) :
    (∀ t : ℕ, (calculate_macd closes fast slow signal).dif.getD t 0 =
        (ema fast closes).getD t 0 - (ema slow closes).getD t 0) ∧
      (∀ t : ℕ, t < closes.length →
        (calculate_macd closes fast slow signal).dea.getD t 0 =
          refEMA (2 / (signal + 1)) (calculate_macd closes fast slow signal).dif t) ∧
      (∀ t : ℕ, (calculate_macd closes fast slow signal).hist.getD t 0 =
        2 * ((calculate_macd closes fast slow signal).dif.getD t 0 -
          (calculate_macd closes fast slow signal).dea.getD t 0)) ∧
      (∀ t : ℕ, t < 10 →
        (calculate_macd goldenCloses 2 4 2).dif.getD t 0 =
            refEMA (2 / 3) goldenCloses t - refEMA (2 / 5) goldenCloses t ∧
          (calculate_macd goldenCloses 2 4 2).dea.getD t 0 =
            refEMA (2 / 3) (calculate_macd goldenCloses 2 4 2).dif t) := by
  refine ⟨?_, ?_, ?_, ?_⟩
  · intro t
    exact zipWith_sub_getD _ _ (by simp [ema_length]) t
  · intro t ht
    have hlen : t < (calculate_macd closes fast slow signal).dif.length := by
      rwa [calculate_macd_dif_length]
    exact emaAlpha_getD_eq_refEMA _ _ t hlen
  · intro t
    have hdl : (calculate_macd closes fast slow signal).dif.length =
        (calculate_macd closes fast slow signal).dea.length := by
      simp [calculate_macd, ema_length]
    exact zipWith_hist_getD _ _ hdl t
  · intro t ht
    have hg : t < goldenCloses.length := by simpa [goldenCloses] using ht
    have hfast : (2 : ℚ) / ((2 : ℕ) + 1) = 2 / 3 := by norm_num
    have hslow : (2 : ℚ) / ((4 : ℕ) + 1) = 2 / 5 := by norm_num
    constructor
    · have h1 := zipWith_sub_getD (ema 2 goldenCloses) (ema 4 goldenCloses)
        (by simp [ema_length]) t
      have h2 : (ema 2 goldenCloses).getD t 0 = refEMA (2 / 3) goldenCloses t := by
        rw [ema, hfast]; exact emaAlpha_getD_eq_refEMA _ _ t hg
      have h3 : (ema 4 goldenCloses).getD t 0 = refEMA (2 / 5) goldenCloses t := by
        rw [ema, hslow]; exact emaAlpha_getD_eq_refEMA _ _ t hg
      calc (calculate_macd goldenCloses 2 4 2).dif.getD t 0
          = (ema 2 goldenCloses).getD t 0 - (ema 4 goldenCloses).getD t 0 := h1
        _ = refEMA (2 / 3) goldenCloses t - refEMA (2 / 5) goldenCloses t := by
            rw [h2, h3]
    · have hlen : t < (calculate_macd goldenCloses 2 4 2).dif.length := by
        rwa [calculate_macd_dif_length]
      have h4 : (calculate_macd goldenCloses 2 4 2).dea.getD t 0 =
          refEMA (2 / ((2 : ℕ) + 1)) (calculate_macd goldenCloses 2 4 2).dif t := by
        exact emaAlpha_getD_eq_refEMA _ _ t hlen
      rwa [hfast] at h4

/-- Witness for `calculate_macd_spec` at the golden fixture: `DEA` matches the
reference recurrence at bar 3. -/
theorem calculate_macd_spec_witness :
    (3 : ℕ) < goldenCloses.length ∧
      (calculate_macd goldenCloses 2 4 2).dea.getD 3 0 =
        refEMA (2 / (2 + 1)) (calculate_macd goldenCloses 2 4 2).dif 3 :=
  ⟨by simp [goldenCloses],
    (calculate_macd_spec goldenCloses 2 4 2).2.1 3 (by simp [goldenCloses])⟩

theorem ewmaFrom_replicate (alpha c : ℚ) (n : ℕ) :
    ewmaFrom alpha c (List.replicate n c) = List.replicate n c := by
  induction n with
  | zero => rfl
  | succ m ih =>
    have hc : alpha * c + (1 - alpha) * c = c := by ring
    simp [List.replicate_succ, ewmaFrom, hc, ih]

theorem emaAlpha_replicate (alpha c : ℚ) (n : ℕ) :
    emaAlpha alpha (List.replicate n c) = List.replicate n c := by
  cases n with
  | zero => rfl
  | succ m => simp [List.replicate_succ, emaAlpha, ewmaFrom_replicate]

theorem zipWith_sub_replicate (c : ℚ) (n : ℕ) :
    List.zipWith (fun a b => a - b) (List.replicate n c) (List.replicate n c) =
      List.replicate n 0 := by
  induction n with
  | zero => rfl
  | succ m ih => simp [List.replicate_succ, ih]

theorem zipWith_hist_replicate (n : ℕ) :
    List.zipWith (fun a b => 2 * (a - b)) (List.replicate n (0 : ℚ))
      (List.replicate n 0) = List.replicate n 0 := by
  induction n with
  | zero => rfl
  | succ m ih => simp [List.replicate_succ, ih]

/-- `C5`: on a constant close series the EMA equals that constant at every
index, and `DIF` and `Histogram` of `calculate_macd` are identically zero. -/
theorem constant_series_macd (c : ℚ) (n : ℕ) (span fast slow signal : ℕ) :
    ema span (List.replicate n c) = List.replicate n c ∧
      (calculate_macd (List.replicate n c) fast slow signal).dif =
        List.replicate n 0 ∧
      (calculate_macd (List.replicate n c) fast slow signal).hist =
        List.replicate n 0 := by
  have hdif : (calculate_macd (List.replicate n c) fast slow signal).dif =
      List.replicate n 0 := by
    simp [calculate_macd, ema, emaAlpha_replicate, zipWith_sub_replicate]
  refine ⟨emaAlpha_replicate _ _ _, hdif, ?_⟩
  simp [calculate_macd] at hdif
  simp [calculate_macd, hdif, ema, emaAlpha_replicate, zipWith_hist_replicate]

/-! ## Screening pipeline

`screen_stock` (web) and `screen_stock_tab1` (unified) read, from the last
rows of the indicator dataframe, the latest close, `MA55`, `DEA`, `DIF`, the
current and previous histogram bars, and the maximum `DEA` over
`df.tail(100)` — the lookback window.  A `Frame` packages exactly those
values; `ma55` is `none` when `pd.isna(ma55)` holds (fewer than 55 bars of
history). -/

/-- The threshold parameters of one entry of `MODES` / `TAB1_MODES`. -/
structure ScreenMode where
  maMin : ℚ
  maMax : ℚ
  historyDea : ℚ
  pullback : ℚ
  deaMin : ℚ
  deaMax : ℚ
  deriving DecidableEq, Repr

/-- The values the screening functions read from the indicator dataframe:
latest close, `MA55` (undefined while fewer than 55 bars exist), latest
`DEA`/`DIF`, latest and previous histogram bar, and the `DEA` values of the
`df.tail(100)` lookback window. -/
structure Frame where
  close : ℚ
  ma55 : Option ℚ
  dea : ℚ
  dif : ℚ
  macd : ℚ
  prevMacd : ℚ
  deaWindow : List ℚ
  deriving DecidableEq, Repr

/-- `pandas` max over a (nonempty) column slice: `df.tail(100)['DEA'].max()`. -/
def listMax : List ℚ → ℚ
  | [] => 0
  | x :: xs => xs.foldl max x

/-- The signal label attached to a match. -/
inductive Signal where
  | golden
  | shrinkingGreen
  | pendingCross
  deriving DecidableEq, Repr

/-- Signal classification shared by both weekly screeners:
`金叉` if `DIF > DEA`, else `绿柱缩短` if the histogram increased while
staying negative, else `待金叉`. -/
def classifySignal (fr : Frame) : Signal :=
  if fr.dif > fr.dea then .golden
  else if fr.macd > fr.prevMacd ∧ fr.macd < 0 then .shrinkingGreen
  else .pendingCross

/-- Reject reasons of the web screener `screen_stock`. -/
inductive WebReason where
  | no_ma
  | below_ma
  | too_far
  | low_history
  | no_pullback
  | dea_range
  | no_golden
  deriving DecidableEq, Repr

/-- Verdict of the web screener: a reject reason or a match with its signal
label (the remaining fields of the result record are numeric copies of the
frame and are not modelled). -/
inductive WebVerdict where
  | reject (r : WebReason)
  | matched (s : Signal)
  deriving DecidableEq, Repr

/-- `screen_stock` (web version), from the point where the indicator values
have been extracted: the chain of early-returning `if` tests of lines
205–233. -/
def screen_stock_core (p : ScreenMode) (golden_only : Bool) (fr : Frame) :
    WebVerdict :=
  match fr.ma55 with
  | none => .reject .no_ma
  | some ma =>
    let deviation := (fr.close - ma) / ma
    if deviation < p.maMin then .reject .below_ma
    else if deviation ≥ p.maMax then .reject .too_far
    else
      let maxDea := listMax fr.deaWindow
      if maxDea ≤ p.historyDea then .reject .low_history
      else if fr.dea ≥ p.pullback * maxDea then .reject .no_pullback
      else if fr.dea ≤ p.deaMin ∨ fr.dea ≥ p.deaMax then .reject .dea_range
      else if golden_only ∧ ¬ fr.dif > fr.dea then .reject .no_golden
      else .matched (classifySignal fr)

/-- Reject reasons of `screen_stock_tab1` (unified version); the
historical-peak and pullback tests share the single code `dea_filter`. -/
inductive Tab1Reason where
  | no_ma
  | ma_filter
  | dea_filter
  | dea_range
  | no_golden
  deriving DecidableEq, Repr

/-- Verdict of the unified tab1 screener. -/
inductive Tab1Verdict where
  | reject (r : Tab1Reason)
  | matched (s : Signal)
  deriving DecidableEq, Repr

/-- `screen_stock_tab1` (unified version), from the point where the indicator
values have been extracted: lines 185–203. -/
def screen_stock_tab1_core (p : ScreenMode) (golden_only : Bool) (fr : Frame) :
    Tab1Verdict :=
  match fr.ma55 with
  | none => .reject .no_ma
  | some ma =>
    let deviation := (fr.close - ma) / ma
    if deviation < p.maMin ∨ deviation ≥ p.maMax then .reject .ma_filter
    else
      let maxDea := listMax fr.deaWindow
      if maxDea ≤ p.historyDea ∨ fr.dea ≥ p.pullback * maxDea then
        .reject .dea_filter
      else if fr.dea ≤ p.deaMin ∨ fr.dea ≥ p.deaMax then .reject .dea_range
      else if golden_only ∧ ¬ fr.dif > fr.dea then .reject .no_golden
      else .matched (classifySignal fr)

/-- Whether a tab1 verdict is a match. -/
def Tab1Verdict.isMatched : Tab1Verdict → Bool
  | .matched _ => true
  | .reject _ => false

/-! ### Specification-side evaluation (§4.3): ordered predicate chain with
first-failure reporting. -/

/-- Reason codes of the §4.3 predicate chain. -/
inductive SpecReason where
  | insufficientHistory
  | deviationTest
  | historyTest
  | pullbackTest
  | zeroAxisTest
  | crossTest
  deriving DecidableEq, Repr

/-- Spec-side verdict. -/
inductive SpecVerdict where
  | reject (r : SpecReason)
  | pass
  deriving DecidableEq, Repr

/-- Modelled from the spec: predicate `k` of the fixed §4.3 order *fails* on
the given frame.  `0` support/deviation, `1` historical peak, `2` pullback,
`3` zero-axis band, `4` confirmed cross (failing only when the
`confirmedCrossOnly` flag is set). -/
def predFails (p : ScreenMode) (golden_only : Bool) (fr : Frame) (ma : ℚ) :
    ℕ → Bool
  | 0 => decide ((fr.close - ma) / ma < p.maMin ∨ (fr.close - ma) / ma ≥ p.maMax)
  | 1 => decide (listMax fr.deaWindow ≤ p.historyDea)
  | 2 => decide (fr.dea ≥ p.pullback * listMax fr.deaWindow)
  | 3 => decide (fr.dea ≤ p.deaMin ∨ fr.dea ≥ p.deaMax)
  | 4 => golden_only && decide (¬ fr.dif > fr.dea)
  | _ => false

/-- The reason code attached to predicate index `k` of §4.3. -/
def reasonOfIndex : ℕ → SpecReason
  | 0 => .deviationTest
  | 1 => .historyTest
  | 2 => .pullbackTest
  | 3 => .zeroAxisTest
  | _ => .crossTest

/-- Modelled from the spec: `ScreeningPipeline.evaluate` — an undefined MA
rejects with `InsufficientHistory` before any predicate is consulted;
otherwise the *first* failing predicate of the fixed order determines the
reject reason, and the symbol passes when none fails. -/
def specEvaluate (p : ScreenMode) (golden_only : Bool) (fr : Frame) :
    SpecVerdict :=
  match fr.ma55 with
  | none => .reject .insufficientHistory
  | some ma =>
    match [0, 1, 2, 3, 4].find? (predFails p golden_only fr ma) with
    | some k => .reject (reasonOfIndex k)
    | none => .pass

/-- The §4.3 predicate a web reject reason belongs to (`no_ma` stands for the
insufficient-history rejection). -/
def webReasonToSpec : WebReason → SpecReason
  | .no_ma => .insufficientHistory
  | .below_ma => .deviationTest
  | .too_far => .deviationTest
  | .low_history => .historyTest
  | .no_pullback => .pullbackTest
  | .dea_range => .zeroAxisTest
  | .no_golden => .crossTest

/-- Abstraction of a web verdict to the spec-side verdict. -/
def webAbs : WebVerdict → SpecVerdict
  | .reject r => .reject (webReasonToSpec r)
  | .matched _ => .pass

/-- The tab1 reason code attached to each spec reason (the historical-peak
and pullback predicates share `dea_filter`). -/
def specReasonToTab1 : SpecReason → Tab1Reason
  | .insufficientHistory => .no_ma
  | .deviationTest => .ma_filter
  | .historyTest => .dea_filter
  | .pullbackTest => .dea_filter
  | .zeroAxisTest => .dea_range
  | .crossTest => .no_golden

/-- Concretization of a spec verdict into tab1 reason codes (matches map to
an unconstrained signal, compared only through `isMatched`-irrelevant
projection below). -/
def tab1OfSpec (s : Signal) : SpecVerdict → Tab1Verdict
  | .reject r => .reject (specReasonToTab1 r)
  | .pass => .matched s

theorem find?_chain (f : ℕ → Bool) :
    [0, 1, 2, 3, 4].find? f =
      if f 0 then some 0 else if f 1 then some 1 else if f 2 then some 2
        else if f 3 then some 3 else if f 4 then some 4 else none := by
  cases h0 : f 0 <;> cases h1 : f 1 <;> cases h2 : f 2 <;> cases h3 : f 3 <;>
    cases h4 : f 4 <;> simp [List.find?, h0, h1, h2, h3, h4]

theorem webAbs_screen_stock (p : ScreenMode) (g : Bool) (fr : Frame) :
    webAbs (screen_stock_core p g fr) = specEvaluate p g fr := by
  cases hma : fr.ma55 with
  | none =>
    simp [screen_stock_core, specEvaluate, hma, webAbs, webReasonToSpec]
  | some ma =>
    simp only [screen_stock_core, specEvaluate, hma]
    split_ifs with h1 h2 h3 h4 h5 h6
    · have b0 : predFails p g fr ma 0 = true := by simp [predFails, h1]
      simp [find?_chain, b0, webAbs, webReasonToSpec, reasonOfIndex]
    · have b0 : predFails p g fr ma 0 = true := by simp [predFails, h2]
      simp [find?_chain, b0, webAbs, webReasonToSpec, reasonOfIndex]
    · have b0 : predFails p g fr ma 0 = false := by simp [predFails, h1, h2]
      have b1 : predFails p g fr ma 1 = true := by simp [predFails, h3]
      simp [find?_chain, b0, b1, webAbs, webReasonToSpec, reasonOfIndex]
    · have b0 : predFails p g fr ma 0 = false := by simp [predFails, h1, h2]
      have b1 : predFails p g fr ma 1 = false := by simp [predFails, h3]
      have b2 : predFails p g fr ma 2 = true := by simp [predFails, h4]
      simp [find?_chain, b0, b1, b2, webAbs, webReasonToSpec, reasonOfIndex]
    · have b0 : predFails p g fr ma 0 = false := by simp [predFails, h1, h2]
      have b1 : predFails p g fr ma 1 = false := by simp [predFails, h3]
      have b2 : predFails p g fr ma 2 = false := by simp [predFails, h4]
      have b3 : predFails p g fr ma 3 = true := by simp [predFails, h5]
      simp [find?_chain, b0, b1, b2, b3, webAbs, webReasonToSpec, reasonOfIndex]
    · have b0 : predFails p g fr ma 0 = false := by simp [predFails, h1, h2]
      have b1 : predFails p g fr ma 1 = false := by simp [predFails, h3]
      have b2 : predFails p g fr ma 2 = false := by simp [predFails, h4]
      have b3 : predFails p g fr ma 3 = false := by simp [predFails, h5]
      have b4 : predFails p g fr ma 4 = true := by
        simp [predFails, h6.1, h6.2]
      simp [find?_chain, b0, b1, b2, b3, b4, webAbs, webReasonToSpec, reasonOfIndex]
    · have b0 : predFails p g fr ma 0 = false := by simp [predFails, h1, h2]
      have b1 : predFails p g fr ma 1 = false := by simp [predFails, h3]
      have b2 : predFails p g fr ma 2 = false := by simp [predFails, h4]
      have b3 : predFails p g fr ma 3 = false := by simp [predFails, h5]
      have b4 : predFails p g fr ma 4 = false := by
        cases hg : g with
        | false => simp [predFails, hg]
        | true =>
          simp only [hg, true_and] at h6
          simp [predFails, hg, h6]
      simp [find?_chain, b0, b1, b2, b3, b4, webAbs]

theorem tab1_screen_stock (p : ScreenMode) (g : Bool) (fr : Frame) :
    screen_stock_tab1_core p g fr =
      tab1OfSpec (classifySignal fr) (specEvaluate p g fr) := by
  cases hma : fr.ma55 with
  | none =>
    simp [screen_stock_tab1_core, specEvaluate, hma, tab1OfSpec, specReasonToTab1]
  | some ma =>
    simp only [screen_stock_tab1_core, specEvaluate, hma]
    split_ifs with h1 h2 h3 h4
    · have b0 : predFails p g fr ma 0 = true := by simp [predFails, h1]
      simp [find?_chain, b0, tab1OfSpec, specReasonToTab1, reasonOfIndex]
    · have b0 : predFails p g fr ma 0 = false := by
        push_neg at h1
        simp [predFails, h1.1, h1.2]
      rcases h2 with h2a | h2b
      · have b1 : predFails p g fr ma 1 = true := by simp [predFails, h2a]
        simp [find?_chain, b0, b1, tab1OfSpec, specReasonToTab1, reasonOfIndex]
      · by_cases h2a : listMax fr.deaWindow ≤ p.historyDea
        · have b1 : predFails p g fr ma 1 = true := by simp [predFails, h2a]
          simp [find?_chain, b0, b1, tab1OfSpec, specReasonToTab1, reasonOfIndex]
        · have b1 : predFails p g fr ma 1 = false := by simp [predFails, h2a]
          have b2 : predFails p g fr ma 2 = true := by simp [predFails, h2b]
          simp [find?_chain, b0, b1, b2, tab1OfSpec, specReasonToTab1, reasonOfIndex]
    · push_neg at h1 h2
      have b0 : predFails p g fr ma 0 = false := by simp [predFails, h1.1, h1.2]
      have b1 : predFails p g fr ma 1 = false := by simp [predFails, h2.1]
      have b2 : predFails p g fr ma 2 = false := by simp [predFails, h2.2]
      have b3 : predFails p g fr ma 3 = true := by simp [predFails, h3]
      simp [find?_chain, b0, b1, b2, b3, tab1OfSpec, specReasonToTab1, reasonOfIndex]
    · push_neg at h1 h2 h3
      have b0 : predFails p g fr ma 0 = false := by simp [predFails, h1.1, h1.2]
      have b1 : predFails p g fr ma 1 = false := by simp [predFails, h2.1]
      have b2 : predFails p g fr ma 2 = false := by simp [predFails, h2.2]
      have b3 : predFails p g fr ma 3 = false := by simp [predFails, h3.1, h3.2]
      have b4 : predFails p g fr ma 4 = true := by
        simp [predFails, h4.1, h4.2]
      simp [find?_chain, b0, b1, b2, b3, b4, tab1OfSpec, specReasonToTab1, reasonOfIndex]
    · push_neg at h1 h2 h3
      have b0 : predFails p g fr ma 0 = false := by simp [predFails, h1.1, h1.2]
      have b1 : predFails p g fr ma 1 = false := by simp [predFails, h2.1]
      have b2 : predFails p g fr ma 2 = false := by simp [predFails, h2.2]
      have b3 : predFails p g fr ma 3 = false := by simp [predFails, h3.1, h3.2]
      have b4 : predFails p g fr ma 4 = false := by
        cases hg : g with
        | false => simp [predFails, hg]
        | true =>
          simp only [hg, true_and] at h4
          simp [predFails, hg, h4]
      simp [find?_chain, b0, b1, b2, b3, b4, tab1OfSpec]

/-- `C1`: both weekly screeners implement the §4.3 ordered, short-circuiting
predicate chain — abstracted to the spec reason codes, every verdict equals
the one determined by the *first* failing predicate in the fixed order
(deviation, historical peak, pullback, zero-axis band, confirmed cross), and
an undefined MA yields the insufficient-history rejection before any
predicate is consulted. -/
theorem first_failing_predicate_reason (p : ScreenMode) (g : Bool) (fr : Frame) :
    webAbs (screen_stock_core p g fr) = specEvaluate p g fr ∧
      screen_stock_tab1_core p g fr =
        tab1OfSpec (classifySignal fr) (specEvaluate p g fr) :=
  ⟨webAbs_screen_stock p g fr, tab1_screen_stock p g fr⟩

/-- `C6`: with a defined (nonzero) MA, `screen_stock_tab1` passes exactly when
`deviation ∈ [maMin, maMax)`, the lookback DEA peak strictly exceeds
`historyDea`, the current DEA is strictly below `pullback × peak`, the current
DEA lies strictly inside `(deaMin, deaMax)`, and — when the golden-only flag
is set — `DIF > DEA`. -/
theorem tab1_pass_characterization (p : ScreenMode) (g : Bool) (fr : Frame)
    (ma : ℚ) (hma : fr.ma55 = some ma) (hz : ma ≠ 0) :
    (screen_stock_tab1_core p g fr).isMatched = true ↔
      (p.maMin ≤ (fr.close - ma) / ma ∧ (fr.close - ma) / ma < p.maMax ∧
        p.historyDea < listMax fr.deaWindow ∧
        fr.dea < p.pullback * listMax fr.deaWindow ∧
        p.deaMin < fr.dea ∧ fr.dea < p.deaMax ∧
        (g = true → fr.dea < fr.dif)) := by
  simp only [screen_stock_tab1_core, hma]
  split_ifs with h1 h2 h3 h4
  · simp only [Tab1Verdict.isMatched, Bool.false_eq_true, false_iff]
    rintro ⟨c1, c2, c3, c4, c5, c6, c7⟩
    rcases h1 with h | h
    · exact absurd c1 (not_le.mpr h)
    · exact absurd h (not_le.mpr c2)
  · simp only [Tab1Verdict.isMatched, Bool.false_eq_true, false_iff]
    rintro ⟨c1, c2, c3, c4, c5, c6, c7⟩
    rcases h2 with h | h
    · exact absurd h (not_le.mpr c3)
    · exact absurd h (not_le.mpr c4)
  · simp only [Tab1Verdict.isMatched, Bool.false_eq_true, false_iff]
    rintro ⟨c1, c2, c3, c4, c5, c6, c7⟩
    rcases h3 with h | h
    · exact absurd h (not_le.mpr c5)
    · exact absurd h (not_le.mpr c6)
  · simp only [Tab1Verdict.isMatched, Bool.false_eq_true, false_iff]
    rintro ⟨c1, c2, c3, c4, c5, c6, c7⟩
    exact h4.2 (c7 h4.1)
  · simp only [Tab1Verdict.isMatched, true_iff]
    push_neg at h1 h2 h3
    refine ⟨h1.1, h1.2, h2.1, h2.2, h3.1, h3.2, ?_⟩
    intro hg
    by_contra hnd
    exact h4 ⟨hg, not_lt.mpr (not_lt.mp hnd)⟩

/-- Witness for `tab1_pass_characterization`: a concrete frame (close 10,
MA55 10, DEA 1/5, DIF 3/10, lookback window `[1/2]`) passes the default-mode
thresholds. -/
theorem tab1_pass_characterization_witness :
    (screen_stock_tab1_core ⟨-(1/20), 1/10, 1/10, 1/2, 0, 1⟩ false
        ⟨10, some 10, 1/5, 3/10, 0, 0, [1/2]⟩).isMatched = true :=
  (tab1_pass_characterization ⟨-(1/20), 1/10, 1/10, 1/2, 0, 1⟩ false
      ⟨10, some 10, 1/5, 3/10, 0, 0, [1/2]⟩ 10 rfl (by norm_num)).mpr
    (by norm_num [listMax])

/-! ## Weekly resampling fallback

`_fetch_weekly_tencent` (web, lines 99–146) and the Tencent branch of
`get_weekly_data_tab1` (unified, lines 124–156) turn daily bars into weekly
bars with `df_daily.resample("W-FRI").agg({open: first, high: max, low: min,
close: last, amount: sum}).dropna()`.  `resample("W-FRI")` bins rows by the
calendar week ending on a Friday (the bin label); empty bins aggregate to
`NaN` rows, which `.dropna()` removes; a *partial* trailing bin (last bar
before its Friday) still aggregates to a real row and is kept.

Dates are day numbers with day 0 a Monday, so a day `d` belongs to the bin
labelled by the next-or-same Friday `friKey d`. -/

/-- A daily bar as returned by the Tencent source (date/open/high/low/close/
amount). -/
structure DailyBar where
  date : ℕ
  dopen : ℚ
  high : ℚ
  low : ℚ
  close : ℚ
  amount : ℚ
  deriving DecidableEq, Repr

/-- A weekly output bar (date/开盘/最高/最低/收盘/成交量). -/
structure WeeklyBar where
  date : ℕ
  wopen : ℚ
  high : ℚ
  low : ℚ
  close : ℚ
  volume : ℚ
  deriving DecidableEq, Repr

/-- The `W-FRI` bin label of a day: the next-or-same Friday (day 0 is a
Monday, so Fridays are the days `≡ 4 (mod 7)`). -/
def friKey (d : ℕ) : ℕ := d + (11 - d % 7) % 7

/-- Aggregation of one nonempty weekly group `b :: bs` (bars in date order):
`open = first`, `high = max`, `low = min`, `close = last`, `volume = sum`,
labelled by the group's Friday. -/
def aggGroup (b : DailyBar) (bs : List DailyBar) : WeeklyBar :=
  { date := friKey b.date,
    wopen := b.dopen,
    high := (bs.map (·.high)).foldl max b.high,
    low := (bs.map (·.low)).foldl min b.low,
    close := ((b :: bs).getLast (by simp)).close,
    volume := (bs.map (·.amount)).foldl (· + ·) b.amount }

/-- The consecutive weekly groups of a date-sorted bar list (the code sorts
by date before resampling). -/
def weeklyGroups : List DailyBar → List (DailyBar × List DailyBar)
  | [] => []
  | b :: bs =>
    (b, bs.takeWhile (fun c => friKey c.date == friKey b.date)) ::
      weeklyGroups (bs.dropWhile (fun c => friKey c.date == friKey b.date))
termination_by l => l.length
decreasing_by
  simp only [List.length_cons]
  exact Nat.lt_succ_of_le (List.Sublist.length_le (List.dropWhile_sublist _))

/-- `resample("W-FRI").agg(first/max/min/last/sum).dropna()` on a date-sorted
daily bar list: one aggregated row per nonempty weekly bin, in order. -/
def resampleWeekly (bars : List DailyBar) : List WeeklyBar :=
  (weeklyGroups bars).map fun g => aggGroup g.1 g.2

/-- Modelled from the spec: group bars by calendar week ending on the fixed
weekday (all bars sharing a `friKey`), and aggregate each group as
`open = first`, `high = max`, `low = min`, `close = last`, `volume = sum`. -/
def specWeekly : List DailyBar → List WeeklyBar
  | [] => []
  | b :: bs =>
    aggGroup b (bs.filter (fun c => friKey c.date == friKey b.date)) ::
      specWeekly (bs.filter (fun c => !(friKey c.date == friKey b.date)))
termination_by l => l.length
decreasing_by
  simp only [List.length_cons]
  exact Nat.lt_succ_of_le (List.length_filter_le _ _)

/-- Modelled from the spec: the claimed resampler, which additionally drops
the incomplete trailing group — the last group whose calendar week has not
ended at the series' last bar (last date strictly before its Friday). -/
def specWeeklyDropTrailing (bars : List DailyBar) : List WeeklyBar :=
  match bars.getLast? with
  | none => specWeekly bars
  | some b =>
    if friKey b.date == b.date then specWeekly bars
    else (specWeekly bars).dropLast

theorem friKey_mono {d e : ℕ} (h : d ≤ e) : friKey d ≤ friKey e := by
  unfold friKey; omega

/-- In a key-sorted list whose keys are all `≥ k`, the bars with key `k` form
the initial run: filtering by the key agrees with `takeWhile`, and filtering
by its negation agrees with `dropWhile`. -/
theorem group_split (k : ℕ) (l : List DailyBar)
    (hs : l.Pairwise (fun a b => friKey a.date ≤ friKey b.date))
    (hlb : ∀ c ∈ l, k ≤ friKey c.date) :
    l.filter (fun c => friKey c.date == k) =
        l.takeWhile (fun c => friKey c.date == k) ∧
      l.filter (fun c => !(friKey c.date == k)) =
        l.dropWhile (fun c => friKey c.date == k) := by
  induction l with
  | nil => exact ⟨rfl, rfl⟩
  | cons c l ih =>
    rcases List.pairwise_cons.mp hs with ⟨hcl, hs'⟩
    by_cases hc : friKey c.date = k
    · have hlb' : ∀ d ∈ l, k ≤ friKey d.date := fun d hd => hc ▸ hcl d hd
      obtain ⟨ih1, ih2⟩ := ih hs' hlb'
      simp [List.filter_cons, List.takeWhile_cons, List.dropWhile_cons, hc,
        ih1, ih2]
    · have hck : k < friKey c.date :=
        lt_of_le_of_ne (hlb c (List.mem_cons_self _ _)) (Ne.symm hc)
      have hgt : ∀ d ∈ l, ¬ friKey d.date = k := by
        intro d hd heq
        have := hcl d hd
        omega
      have hfil1 : l.filter (fun c => friKey c.date == k) = [] :=
        List.filter_eq_nil_iff.mpr (by simpa using hgt)
      have hfil2 : l.filter (fun c => !(friKey c.date == k)) = l :=
        List.filter_eq_self.mpr (by simpa using hgt)
      simp [List.filter_cons, List.takeWhile_cons, List.dropWhile_cons, hc,
        hfil1, hfil2]

theorem specWeekly_eq_resampleWeekly_aux :
    ∀ (n : ℕ) (bars : List DailyBar), bars.length ≤ n →
      bars.Pairwise (fun a b => friKey a.date ≤ friKey b.date) →
      specWeekly bars = resampleWeekly bars := by
  intro n
  induction n with
  | zero =>
    intro bars hlen _
    have hb : bars = [] := List.eq_nil_of_length_eq_zero (Nat.le_zero.mp hlen)
    subst hb
    simp [specWeekly, resampleWeekly, weeklyGroups]
  | succ m ih =>
    intro bars hlen hs
    cases bars with
    | nil => simp [specWeekly, resampleWeekly, weeklyGroups]
    | cons b bs =>
      rcases List.pairwise_cons.mp hs with ⟨hbl, hs'⟩
      obtain ⟨h1, h2⟩ := group_split (friKey b.date) bs hs' hbl
      have hrest : (bs.dropWhile
          (fun c => friKey c.date == friKey b.date)).Pairwise
            (fun a b => friKey a.date ≤ friKey b.date) :=
        hs'.sublist (List.dropWhile_sublist _)
      have hrlen : (bs.dropWhile
          (fun c => friKey c.date == friKey b.date)).length ≤ m := by
        have := List.Sublist.length_le (List.dropWhile_sublist
          (fun c => friKey c.date == friKey b.date) (l := bs))
        simp only [List.length_cons] at hlen
        omega
      calc specWeekly (b :: bs)
          = aggGroup b (bs.filter (fun c => friKey c.date == friKey b.date)) ::
            specWeekly (bs.filter (fun c => !(friKey c.date == friKey b.date))) := by
            rw [specWeekly]
        _ = aggGroup b (bs.takeWhile (fun c => friKey c.date == friKey b.date)) ::
            resampleWeekly (bs.dropWhile (fun c => friKey c.date == friKey b.date)) := by
            rw [h1, h2, ih _ hrlen hrest]
        _ = resampleWeekly (b :: bs) := by
            simp [resampleWeekly, weeklyGroups]

/-- For every date-sorted daily series, the implemented resampler agrees with
the spec-side partition-by-calendar-week aggregation (`open = first`,
`high = max`, `low = min`, `close = last`, `volume = sum` per week). -/
theorem resampleWeekly_eq_specWeekly (bars : List DailyBar)
    (hs : bars.Pairwise (fun a b => a.date ≤ b.date)) :
    resampleWeekly bars = specWeekly bars :=
  (specWeekly_eq_resampleWeekly_aux bars.length bars le_rfl
    (hs.imp fun h => friKey_mono h)).symm

/-- The 10-day golden input: two full Monday–Friday trading weeks
(days 0–4 and 7–11). -/
def tenDayBars : List DailyBar :=
  [⟨0, 10, 12, 9, 11, 100⟩, ⟨1, 11, 13, 10, 12, 110⟩, ⟨2, 12, 14, 11, 13, 120⟩,
    ⟨3, 13, 15, 12, 14, 130⟩, ⟨4, 14, 16, 13, 15, 140⟩,
    ⟨7, 15, 17, 14, 16, 150⟩, ⟨8, 16, 18, 15, 17, 160⟩,
    ⟨9, 17, 19, 16, 18, 170⟩, ⟨10, 18, 20, 17, 19, 180⟩,
    ⟨11, 19, 21, 18, 20, 190⟩]

/-- An 8-day input whose second week is cut short on a Wednesday (days 0–4,
then 7–9): its trailing weekly group is incomplete. -/
def shortWeekBars : List DailyBar :=
  [⟨0, 10, 12, 9, 11, 100⟩, ⟨1, 11, 13, 10, 12, 110⟩, ⟨2, 12, 14, 11, 13, 120⟩,
    ⟨3, 13, 15, 12, 14, 130⟩, ⟨4, 14, 16, 13, 15, 140⟩,
    ⟨7, 15, 17, 14, 16, 150⟩, ⟨8, 16, 18, 15, 17, 160⟩,
    ⟨9, 17, 19, 16, 18, 170⟩]

/-- Counterexample to `C7` as stated: on the 8-day input ending mid-week the
implemented resampler keeps the incomplete trailing group (producing two
weekly rows), while the claimed behaviour — dropping incomplete trailing
groups — produces only one. -/
theorem resampleWeekly_keeps_trailing_group :
    resampleWeekly shortWeekBars ≠ specWeeklyDropTrailing shortWeekBars := by
  intro h
  have hlen := congrArg List.length h
  have h1 : (resampleWeekly shortWeekBars).length = 2 := by
    simp [resampleWeekly, weeklyGroups, shortWeekBars, friKey]
  have h2 : (specWeeklyDropTrailing shortWeekBars).length = 1 := by
    simp [specWeeklyDropTrailing, specWeekly, shortWeekBars, friKey]
  rw [h1, h2] at hlen
  exact absurd hlen (by norm_num)

/-- `C7` (amended): resampling groups date-sorted daily bars by the calendar
week ending Friday and aggregates each group as `open = first`, `high = max`,
`low = min`, `close = last`, `volume = sum`, dropping only *empty* groups —
an incomplete trailing group is kept and aggregated over the bars present;
on the 10-day two-week input the result equals the hand-computed per-week
aggregates. -/
theorem resampleWeekly_spec (bars : List DailyBar)
    (hs : bars.Pairwise (fun a b => a.date ≤ b.date)) :
    resampleWeekly bars = specWeekly bars ∧
      resampleWeekly tenDayBars =
        [⟨4, 10, 16, 9, 15, 600⟩, ⟨11, 15, 21, 14, 20, 850⟩] := by
  refine ⟨resampleWeekly_eq_specWeekly bars hs, ?_⟩
  norm_num [resampleWeekly, weeklyGroups, tenDayBars, aggGroup, friKey,
    max_def, min_def]

/-- Witness for `resampleWeekly_spec` at the 10-day golden input. -/
theorem resampleWeekly_spec_witness :
    resampleWeekly tenDayBars = specWeekly tenDayBars ∧
      resampleWeekly tenDayBars =
        [⟨4, 10, 16, 9, 15, 600⟩, ⟨11, 15, 21, 14, 20, 850⟩] :=
  resampleWeekly_spec tenDayBars (by simp [tenDayBars, List.pairwise_cons])

/-! ## Job orchestration

A sequential model of `run_task_tab1` / `run_task_tab2` and the
`/start/<tab>` route.  Per-symbol work (network fetch + indicators +
screening) is abstracted into the classification outcome the loop body reads
(`result`/`status` pair of the screen function); the symbol universe becomes
the list of those outcomes.  `current_stock` (a display string) is not
modelled; the free-text `message` field is abstracted into the finitely many
texts the code assigns. -/

/-- Job status values. -/
inductive Status where
  | idle
  | running
  | completed
  | error
  deriving DecidableEq, Repr

/-- Abstraction of the free-text `message` field. -/
inductive Msg where
  | empty
  | fetchingList
  | busyTab
  | failureText
  | doneText
  deriving DecidableEq, Repr

/-- The `stats` sub-dictionary. -/
structure Stats where
  success : ℕ
  failed : ℕ
  matched : ℕ
  deriving DecidableEq, Repr

/-- A matched result record, abstracted to its ranking key
(`偏离度%` for tab1, `市值(亿)` for tab2). -/
structure ResultRec where
  key : ℚ
  deriving DecidableEq, Repr

/-- One per-class entry of the `STATE` dictionary. -/
structure JobState where
  status : Status
  progress : ℕ
  total : ℕ
  results : List ResultRec
  stats : Stats
  message : Msg
  deriving DecidableEq, Repr

/-- The `TAB1_MODES` registry: mode name → threshold parameters
(`ma_min`, `ma_max`, `history_dea`, `pullback`, `dea_min`, `dea_max`). -/
def TAB1_MODES : String → Option ScreenMode
  | "strict" => some ⟨0, 8/100, 3/10, 3/10, 0, 1/2⟩
  | "default" => some ⟨-(5/100), 1/10, 1/10, 1/2, 0, 1⟩
  | "loose" => some ⟨-(1/10), 2/10, 5/100, 7/10, -(2/10), 15/10⟩
  | _ => none

/-- The `(result, status)` classification `screen_stock_tab1` hands to the
tab1 loop: a result record on match, else the status string. -/
inductive Outcome1 where
  | matched (r : ResultRec)
  | no_data
  | err
  | no_ma
  | ma_filter
  | dea_filter
  | dea_range
  | no_golden
  deriving DecidableEq, Repr

/-- The `(result, status)` classification `screen_stock_tab2` hands to the
tab2 loop. -/
inductive Outcome2 where
  | matched (r : ResultRec)
  | no_fundamental
  | pb_filter
  | market_cap_filter
  | beta_filter
  | no_monthly_data
  | err
  deriving DecidableEq, Repr

/-- Whether a tab1 outcome is classified as a failure
(`status in ['no_data', 'error']`). -/
def Outcome1.isFailure : Outcome1 → Bool
  | .no_data => true
  | .err => true
  | _ => false

/-- One iteration of the tab1 symbol loop: bump `progress`, then either
append the result (`matched`/`success` both bumped), bump `failed`
(`status in ['no_data', 'error']`), or bump `success`. -/
def iterTab1 (s : JobState) (o : Outcome1) : JobState :=
  let s1 := { s with progress := s.progress + 1 }
  match o with
  | .matched r =>
    { s1 with
      results := s1.results ++ [r]
      stats := { s1.stats with matched := s1.stats.matched + 1, success := s1.stats.success + 1 } }
  | .no_data => { s1 with stats := { s1.stats with failed := s1.stats.failed + 1 } }
  | .err => { s1 with stats := { s1.stats with failed := s1.stats.failed + 1 } }
  | _ => { s1 with stats := { s1.stats with success := s1.stats.success + 1 } }

/-- One iteration of the tab2 symbol loop (failure statuses are
`['no_fundamental', 'no_monthly_data', 'error']`). -/
def iterTab2 (s : JobState) (o : Outcome2) : JobState :=
  let s1 := { s with progress := s.progress + 1 }
  match o with
  | .matched r =>
    { s1 with
      results := s1.results ++ [r]
      stats := { s1.stats with matched := s1.stats.matched + 1, success := s1.stats.success + 1 } }
  | .no_fundamental => { s1 with stats := { s1.stats with failed := s1.stats.failed + 1 } }
  | .no_monthly_data => { s1 with stats := { s1.stats with failed := s1.stats.failed + 1 } }
  | .err => { s1 with stats := { s1.stats with failed := s1.stats.failed + 1 } }
  | _ => { s1 with stats := { s1.stats with success := s1.stats.success + 1 } }

/-- The tab1 symbol loop over a universe of per-symbol outcomes. -/
def runLoopTab1 (s : JobState) (os : List Outcome1) : JobState :=
  os.foldl iterTab1 s

/-- The tab2 symbol loop. -/
def runLoopTab2 (s : JobState) (os : List Outcome2) : JobState :=
  os.foldl iterTab2 s

/-- The state published by `state.update({...})` at the top of a task body
(status `running`, counters reset), with `total` set from the resolved
universe. -/
def initialRunningState (total : ℕ) : JobState :=
  { status := .running, progress := 0, total := total, results := [],
    stats := ⟨0, 0, 0⟩, message := .fetchingList }

/-- `sorted(state['results'], key=...)` — ascending stable sort by the
ranking key. -/
def sortResults (rs : List ResultRec) : List ResultRec :=
  rs.mergeSort (fun a b => decide (a.key ≤ b.key))

/-- `run_task_tab1` after the lock has been acquired and the universe
resolved, as (final state, trace of published states).  With a registered
mode the loop classifies every outcome, results are sorted and the status
becomes `completed`.  With an unknown mode name the first loop iteration
still bumps `progress`, then `TAB1_MODES[mode]` raises `KeyError` *outside*
`screen_stock_tab1`'s `try`, so the job-level handler marks the job
`error`; with an empty universe the lookup is never evaluated and the job
completes. -/
def runTaskTab1Body (modeName : String) (os : List Outcome1) :
    JobState × List JobState :=
  let s1 := initialRunningState os.length
  match TAB1_MODES modeName with
  | some _ =>
    let s2 := runLoopTab1 s1 os
    let sf := { s2 with
      results := sortResults s2.results
      status := .completed
      message := .doneText }
    (sf, (os.scanl iterTab1 s1) ++ [sf])
  | none =>
    match os with
    | [] =>
      let sf := { s1 with
        results := sortResults s1.results
        status := .completed
        message := .doneText }
      (sf, [s1, sf])
    | _ :: _ =>
      let s2 := { s1 with progress := 1 }
      let sf := { s2 with status := .error, message := .failureText }
      (sf, [s1, s2, sf])

/-- Outcome of one `/start/<tab>` request. -/
inductive StartOutcome where
  | started
  | busy
  deriving DecidableEq, Repr

/-- Per-class orchestration state: the published `STATE[tab]` dictionary, the
non-blocking `TASK_LOCKS[tab]` flag, and the state record owned by a
currently running worker (the dictionary it captured at its start), if
any. -/
structure Sys where
  published : JobState
  lockHeld : Bool
  worker : Option JobState
  deriving DecidableEq, Repr

/-- The fresh record the `/start/<tab>` route installs into `STATE[tab]`
before spawning the worker thread. -/
def freshIdleState : JobState :=
  { status := .idle, progress := 0, total := 0, results := [],
    stats := ⟨0, 0, 0⟩, message := .empty }

/-- One `/start/<tab>` request followed by the spawned worker's prologue,
sequentialized (identical for both job classes; `body` is the final state the
task body would produce).  The route replaces the published state with a
fresh idle record; the worker then tries `TASK_LOCKS[tab].acquire
(blocking=False)`: on failure it publishes the busy error (`status='error'`
with the busy message) and returns without touching the running worker's own
record or processing any symbol; on success it runs the task body to
completion and releases the lock. -/
def startRequest (sys : Sys) (body : JobState) : Sys × StartOutcome :=
  if sys.lockHeld then
    ({ published := { freshIdleState with status := .error, message := .busyTab },
       lockHeld := sys.lockHeld, worker := sys.worker }, .busy)
  else
    ({ published := body, lockHeld := false, worker := none }, .started)

/-- `C2`: a start request arriving while the class's job is running is
rejected immediately with the busy error — no queueing, no symbol processed —
and the running job's own record (progress counter, stats, accumulated
results) is untouched. -/
theorem busy_start_rejected (sys : Sys) (body : JobState) (w : JobState)
    (hw : sys.worker = some w) (hrun : w.status = .running)
    (hl : sys.lockHeld = true) :
    (startRequest sys body).2 = .busy ∧
      (startRequest sys body).1.worker = some w ∧
      (startRequest sys body).1.published.status = .error ∧
      (startRequest sys body).1.published.message = .busyTab ∧
      (startRequest sys body).1.published.progress = 0 ∧
      (startRequest sys body).1.published.results = [] ∧
      (startRequest sys body).1.published.stats = ⟨0, 0, 0⟩ := by
  simp [startRequest, hl, hw, freshIdleState]

/-- Witness for `busy_start_rejected`: a concrete system with a running
worker at progress 3. -/
theorem busy_start_rejected_witness :
    (startRequest ⟨freshIdleState, true,
        some ⟨.running, 3, 5, [], ⟨2, 1, 0⟩, .fetchingList⟩⟩ freshIdleState).2 =
      .busy ∧
      (startRequest ⟨freshIdleState, true,
          some ⟨.running, 3, 5, [], ⟨2, 1, 0⟩, .fetchingList⟩⟩ freshIdleState).1.worker =
        some ⟨.running, 3, 5, [], ⟨2, 1, 0⟩, .fetchingList⟩ :=
  ⟨(busy_start_rejected _ freshIdleState _ rfl rfl rfl).1,
    (busy_start_rejected _ freshIdleState _ rfl rfl rfl).2.1⟩

/-! ### Unknown mode names (C8) -/

/-- Counterexample to `C8` as stated: starting the tab1 task with the
unregistered mode name `"bogus"` over a one-symbol universe *does* publish a
`running` state and *does* perform the first loop iteration (`progress`
reaches 1) before the mode lookup failure kills the job. -/
theorem invalid_mode_reaches_running :
    TAB1_MODES "bogus" = none ∧
      Status.running ∈
        (runTaskTab1Body "bogus" [Outcome1.no_golden]).2.map (·.status) ∧
      (runTaskTab1Body "bogus" [Outcome1.no_golden]).1.progress = 1 := by
  refine ⟨rfl, ?_, ?_⟩ <;>
    simp [runTaskTab1Body, TAB1_MODES, initialRunningState]

/-- `C8` (amended): an unknown mode name is not validated at job start — the
job transitions to `running` and begins its first symbol, whose
`TAB1_MODES[mode]` lookup raises outside the per-symbol handler; the
job-level handler then marks the whole job `error` with no outcome
classified: no results, all stats zero, progress stuck at 1. -/
theorem invalid_mode_job_errors (modeName : String) (o : Outcome1)
    (os : List Outcome1) (hm : TAB1_MODES modeName = none) :
    (runTaskTab1Body modeName (o :: os)).1.status = .error ∧
      (runTaskTab1Body modeName (o :: os)).1.results = [] ∧
      (runTaskTab1Body modeName (o :: os)).1.stats = ⟨0, 0, 0⟩ ∧
      (runTaskTab1Body modeName (o :: os)).1.progress = 1 ∧
      Status.running ∈ (runTaskTab1Body modeName (o :: os)).2.map (·.status) := by
  simp [runTaskTab1Body, hm, initialRunningState]

/-- Witness for `invalid_mode_job_errors` at mode name `"bogus"`. -/
theorem invalid_mode_job_errors_witness :
    (runTaskTab1Body "bogus" [Outcome1.no_golden]).1.status = .error ∧
      (runTaskTab1Body "bogus" [Outcome1.no_golden]).1.results = [] ∧
      (runTaskTab1Body "bogus" [Outcome1.no_golden]).1.stats = ⟨0, 0, 0⟩ ∧
      (runTaskTab1Body "bogus" [Outcome1.no_golden]).1.progress = 1 ∧
      Status.running ∈
        (runTaskTab1Body "bogus" [Outcome1.no_golden]).2.map (·.status) :=
  invalid_mode_job_errors "bogus" Outcome1.no_golden [] rfl

/-! ### Per-symbol failures and loop invariants (C9, C10) -/

theorem iterTab1_progress (s : JobState) (o : Outcome1) :
    (iterTab1 s o).progress = s.progress + 1 := by
  cases o <;> rfl

theorem runLoopTab1_progress (os : List Outcome1) :
    ∀ s : JobState, (runLoopTab1 s os).progress = s.progress + os.length := by
  induction os with
  | nil => intro s; rfl
  | cons o os ih =>
    intro s
    have := ih (iterTab1 s o)
    simp only [runLoopTab1, List.foldl_cons] at this ⊢
    rw [this, iterTab1_progress]
    simp only [List.length_cons]
    omega

theorem runLoopTab1_append (s : JobState) (os1 os2 : List Outcome1) :
    runLoopTab1 s (os1 ++ os2) = runLoopTab1 (runLoopTab1 s os1) os2 := by
  simp [runLoopTab1, List.foldl_append]

/-- `C9`: a per-symbol failure outcome (`no_data` / unexpected exception)
increments `failed` by exactly one, leaves `results`, `success` and `matched`
untouched, does not prevent the remaining symbols from being processed (the
loop over `os1 ++ o :: os2` continues through `os2`, and final progress
counts every symbol), and a job with a registered mode still runs to
`completed` over the full universe. -/
theorem per_symbol_failure_recoverable (s : JobState) (os1 os2 : List Outcome1)
    (o : Outcome1) (ho : o.isFailure = true) (modeName : String)
    (p : ScreenMode) (hm : TAB1_MODES modeName = some p) :
    (iterTab1 (runLoopTab1 s os1) o).stats.failed =
        (runLoopTab1 s os1).stats.failed + 1 ∧
      (iterTab1 (runLoopTab1 s os1) o).results = (runLoopTab1 s os1).results ∧
      (iterTab1 (runLoopTab1 s os1) o).stats.success =
        (runLoopTab1 s os1).stats.success ∧
      (iterTab1 (runLoopTab1 s os1) o).stats.matched =
        (runLoopTab1 s os1).stats.matched ∧
      runLoopTab1 s (os1 ++ o :: os2) =
        runLoopTab1 (iterTab1 (runLoopTab1 s os1) o) os2 ∧
      (runLoopTab1 s (os1 ++ o :: os2)).progress =
        s.progress + os1.length + 1 + os2.length ∧
      (runTaskTab1Body modeName (os1 ++ o :: os2)).1.status = .completed ∧
      (runTaskTab1Body modeName (os1 ++ o :: os2)).1.progress =
        (os1 ++ o :: os2).length := by
  have hiter : ∀ s' : JobState,
      (iterTab1 s' o).stats.failed = s'.stats.failed + 1 ∧
        (iterTab1 s' o).results = s'.results ∧
        (iterTab1 s' o).stats.success = s'.stats.success ∧
        (iterTab1 s' o).stats.matched = s'.stats.matched := by
    intro s'
    cases o <;> simp_all [iterTab1, Outcome1.isFailure]
  refine ⟨(hiter _).1, (hiter _).2.1, (hiter _).2.2.1, (hiter _).2.2.2, ?_, ?_, ?_, ?_⟩
  · rw [runLoopTab1_append]
    simp [runLoopTab1]
  · rw [runLoopTab1_progress]
    simp
    omega
  · simp [runTaskTab1Body, hm]
  · simp only [runTaskTab1Body, hm]
    rw [runLoopTab1_progress]
    simp [initialRunningState]

/-- Witness for `per_symbol_failure_recoverable`: a five-symbol default-mode
run whose third symbol hits `no_data` — `failed` goes to 1, the job still
completes with full progress 5. -/
theorem per_symbol_failure_recoverable_witness :
    (iterTab1 (runLoopTab1 (initialRunningState 5)
          [Outcome1.no_ma, Outcome1.matched ⟨1⟩]) Outcome1.no_data).stats.failed =
        (runLoopTab1 (initialRunningState 5)
          [Outcome1.no_ma, Outcome1.matched ⟨1⟩]).stats.failed + 1 ∧
      (runTaskTab1Body "default"
          ([Outcome1.no_ma, Outcome1.matched ⟨1⟩] ++ Outcome1.no_data ::
            [Outcome1.ma_filter, Outcome1.dea_range])).1.status = .completed ∧
      (runTaskTab1Body "default"
          ([Outcome1.no_ma, Outcome1.matched ⟨1⟩] ++ Outcome1.no_data ::
            [Outcome1.ma_filter, Outcome1.dea_range])).1.progress =
        ([Outcome1.no_ma, Outcome1.matched ⟨1⟩] ++ Outcome1.no_data ::
          [Outcome1.ma_filter, Outcome1.dea_range]).length := by
  have h := per_symbol_failure_recoverable (initialRunningState 5)
    [Outcome1.no_ma, Outcome1.matched ⟨1⟩] [Outcome1.ma_filter, Outcome1.dea_range]
    Outcome1.no_data rfl "default" ⟨-(5/100), 1/10, 1/10, 1/2, 0, 1⟩ rfl
  exact ⟨h.1, h.2.2.2.2.2.2.1, h.2.2.2.2.2.2.2⟩

/-- The loop invariant of `C10` on a job state. -/
def statsInv (s : JobState) : Prop :=
  s.stats.success + s.stats.failed = s.progress ∧
    s.stats.matched = s.results.length ∧
    s.stats.matched ≤ s.stats.success

theorem iterTab1_inv (s : JobState) (o : Outcome1) (h : statsInv s) :
    statsInv (iterTab1 s o) := by
  obtain ⟨h1, h2, h3⟩ := h
  cases o <;> simp [iterTab1, statsInv] <;> omega

theorem iterTab2_inv (s : JobState) (o : Outcome2) (h : statsInv s) :
    statsInv (iterTab2 s o) := by
  obtain ⟨h1, h2, h3⟩ := h
  cases o <;> simp [iterTab2, statsInv] <;> omega

theorem runLoopTab1_inv (os : List Outcome1) :
    ∀ s : JobState, statsInv s → statsInv (runLoopTab1 s os) := by
  induction os with
  | nil => intro s h; exact h
  | cons o os ih =>
    intro s h
    simpa [runLoopTab1] using ih (iterTab1 s o) (iterTab1_inv s o h)

theorem runLoopTab2_inv (os : List Outcome2) :
    ∀ s : JobState, statsInv s → statsInv (runLoopTab2 s os) := by
  induction os with
  | nil => intro s h; exact h
  | cons o os ih =>
    intro s h
    simpa [runLoopTab2] using ih (iterTab2 s o) (iterTab2_inv s o h)

/-- `C10`: from any state satisfying it (in particular the reset state), the
invariant `success + failed = progress ∧ matched = |results|` (hence
`matched ≤ success`) holds at the end of every iteration — i.e. after every
prefix of the outcome list — of both the tab1 and the tab2 symbol loops. -/
theorem loop_stats_invariant (s : JobState) (h : statsInv s) :
    (∀ (os : List Outcome1) (k : ℕ), statsInv (runLoopTab1 s (os.take k))) ∧
      ∀ (os : List Outcome2) (k : ℕ), statsInv (runLoopTab2 s (os.take k)) :=
  ⟨fun os k => runLoopTab1_inv (os.take k) s h,
    fun os k => runLoopTab2_inv (os.take k) s h⟩

/-- Witness for `loop_stats_invariant` along a concrete three-outcome prefix
from the reset state. -/
theorem loop_stats_invariant_witness :
    statsInv (runLoopTab1 (initialRunningState 3)
      ([Outcome1.matched ⟨1⟩, Outcome1.no_data, Outcome1.dea_filter].take 2)) :=
  (loop_stats_invariant (initialRunningState 3)
    (by simp [statsInv, initialRunningState])).1
    [Outcome1.matched ⟨1⟩, Outcome1.no_data, Outcome1.dea_filter] 2

end Screener
